import Mathlib

/-!
Verification of the clienter HTTP client core.

Shallow embedding of the request/response core of the clienter crate:
strings are modelled as `List Char` (one entry per byte read off the wire),
fallible Rust functions return `Option` or `Except`, and the TCP stream is
modelled as the finite list of bytes the peer will deliver before closing
the connection.  Every definition mirrors the corresponding Rust item,
keeping its name where Lean allows.
-/

set_option maxRecDepth 4000

/-- Decidable equality for `Except`, used to evaluate concrete runs of the
fallible functions below. -/
instance {ε α : Type} [DecidableEq ε] [DecidableEq α] : DecidableEq (Except ε α) := fun a b =>
  match a, b with
  | Except.ok x, Except.ok y =>
    if h : x = y then isTrue (by rw [h])
    else isFalse (fun he => h (by cases he; rfl))
  | Except.ok x, Except.error f => isFalse (fun he => Except.noConfusion he)
  | Except.error e, Except.ok y => isFalse (fun he => Except.noConfusion he)
  | Except.error e, Except.error f =>
    if h : e = f then isTrue (by rw [h])
    else isFalse (fun he => h (by cases he; rfl))

namespace Clienter

/-! ## String utilities (src/utils.rs) -/

/-- Mirrors `utils::tuple_split`: split `s` at the first occurrence of the
pattern `pat`, returning the parts before and after the pattern, or `none`
when the pattern does not occur (Rust `str::find` + slicing). -/
def tuple_split (s : List Char) (pat : List Char) : Option (List Char × List Char) :=
  match s with
  | [] => if pat.isPrefixOf ([] : List Char) then some ([], []) else none
  | c :: rest =>
    if pat.isPrefixOf (c :: rest) then some ([], (c :: rest).drop pat.length)
    else
      match tuple_split rest pat with
      | some (l, r) => some (c :: l, r)
      | none => none

/-- Mirrors `utils::triple_split`: two successive `tuple_split`s, yielding
three parts (the third part keeps any further occurrences of the pattern). -/
def triple_split (s : List Char) (pat : List Char) :
    Option (List Char × List Char × List Char) :=
  match tuple_split s pat with
  | none => none
  | some (left, right) =>
    match tuple_split right pat with
    | none => none
    | some (middle, right) => some (left, middle, right)

/-! ## Character classification and trimming -/

/-- Rust `char::is_whitespace` restricted to the byte range 0..=255 that can
arrive from the stream: the Unicode White_Space code points below 0x100. -/
def isWhitespace (c : Char) : Bool :=
  c = ' ' || c = '\t' || c = '\n' || c = '\u000b' || c = '\u000c' || c = '\r' ||
    c = '\u0085' || c = '\u00a0'

/-- Rust `str::trim`: drop whitespace from both ends. -/
def trimList (s : List Char) : List Char :=
  ((s.dropWhile isWhitespace).reverse.dropWhile isWhitespace).reverse

/-! ## Unsigned integer parsing (Rust `str::parse` for u16 / usize) -/

/-- Value of a decimal digit, or `none` for any other character. -/
def digitVal (c : Char) : Option Nat :=
  if '0' ≤ c ∧ c ≤ '9' then some (c.toNat - '0'.toNat) else none

/-- Accumulate decimal digits left to right; fails on a non-digit. -/
def parseDigitsGo (acc : Nat) : List Char → Option Nat
  | [] => some acc
  | c :: rest =>
    match digitVal c with
    | some d => parseDigitsGo (acc * 10 + d) rest
    | none => none

/-- Rust unsigned `str::parse` with an exclusive upper bound: an optional
leading plus sign, then one or more decimal digits; fails on an empty
string, a stray sign, any non-digit, or a value at or above `bound`
(Rust reports overflow during accumulation; for unsigned decimal input the
two conditions agree). -/
def parseNatBounded (s : List Char) (bound : Nat) : Option Nat :=
  let t := match s with
    | '+' :: rest => rest
    | _ => s
  match t with
  | [] => none
  | _ =>
    match parseDigitsGo 0 t with
    | some n => if n < bound then some n else none
    | none => none

/-- Rust `str::parse::<u16>`. -/
def parseU16 (s : List Char) : Option Nat := parseNatBounded s 65536

/-- Rust `str::parse::<usize>` on a 64-bit target. -/
def parseUSize (s : List Char) : Option Nat := parseNatBounded s (2 ^ 64)

/-- Mirrors `utils::tuple_split_parse::<String, u16>` as used for the
host:port split: the left part is taken verbatim (Rust `String::from_str`
is infallible) and the right part must parse as a `u16`. -/
def tuple_split_parse_u16 (s : List Char) (pat : List Char) :
    Option (List Char × Nat) :=
  match tuple_split s pat with
  | none => none
  | some (left, right) =>
    match parseU16 right with
    | none => none
    | some p => some (left, p)

/-! ## Protocol (src/http/protocol.rs, src/core/protocol.rs) -/

/-- The two supported URI schemes. -/
inductive Protocol where
  | HTTP
  | HTTPS
deriving DecidableEq, Repr

/-- Mirrors `FromStr for Protocol`: case-sensitive match of the scheme text
against "http" and "https". -/
def Protocol.fromStr (s : List Char) : Option Protocol :=
  if s = ("http".data) then some Protocol.HTTP
  else if s = ("https".data) then some Protocol.HTTPS
  else none

/-- Mirrors `Protocol::get_default_port`. -/
def Protocol.get_default_port : Protocol → Nat
  | Protocol.HTTP => 80
  | Protocol.HTTPS => 443

/-- Mirrors `Protocol::get_http_version`. -/
def Protocol.get_http_version : Protocol → List Char
  | Protocol.HTTP => ("HTTP/1.1".data)
  | Protocol.HTTPS => ("HTTP/2".data)

/-! ## Uri (src/http/uri.rs) -/

/-- Mirrors `struct Uri`. -/
structure Uri where
  protocol : Protocol
  hostname : List Char
  port : Option Nat
  path : List Char
deriving DecidableEq, Repr

/-- Mirrors `enum UriError`. -/
inductive UriError where
  | Empty
  | InvalidProtocol
  | InvalidHostname
  | InvalidPort
deriving DecidableEq, Repr

/-- The scheme split performed first by `FromStr for Uri`: split at the
first "://"; when absent, the scheme text defaults to "http" and the whole
input is the remainder. -/
def schemeSplit (s : List Char) : List Char × List Char :=
  match tuple_split s ("://".data) with
  | some x => x
  | none => ("http".data, s)

/-- Mirrors `FromStr for Uri` (src/http/uri.rs): scheme split, protocol
parse, host-port/path split at the first slash, optional port parse at the
first colon, and the non-empty-hostname check, with the error precedence of
the source. -/
def Uri.fromStr (s : List Char) : Except UriError Uri :=
  if s = [] then Except.error UriError.Empty
  else
    match schemeSplit s with
    | (protoStr, rest) =>
      match Protocol.fromStr protoStr with
      | none => Except.error UriError.InvalidProtocol
      | some protocol =>
        match (if rest.contains '/' then tuple_split rest ("/".data)
               else some (rest, [])) with
        | none => Except.error UriError.InvalidHostname
        | some (hostport, path) =>
          match (if hostport.contains ':'
                 then (tuple_split_parse_u16 hostport (":".data)).map
                   (fun q => (q.1, some q.2))
                 else some (hostport, none)) with
          | none => Except.error UriError.InvalidPort
          | some (hostname, port) =>
            if hostname = [] then Except.error UriError.InvalidHostname
            else Except.ok { protocol := protocol, hostname := hostname,
                             port := port, path := path }

/-- Rust `str::replace` specialised to the single-character needles used by
`Uri::get_encoded_path` ("%" and " "): every occurrence of the character
`pat` is replaced by the string `rep`, all other characters are kept. -/
def replaceChar (s : List Char) (pat : Char) (rep : List Char) : List Char :=
  match s with
  | [] => []
  | c :: rest => (if c = pat then rep else [c]) ++ replaceChar rest pat rep

/-- Mirrors `Uri::get_encoded_path`:
`self.path.replace("%", "%25").replace(" ", "%20")`. -/
def Uri.get_encoded_path (u : Uri) : List Char :=
  replaceChar (replaceChar u.path '%' ("%25".data)) ' ' ("%20".data)

/-- Mirrors `From<String> for Uri` and `From<&str> for Uri`, which call
`s.parse().unwrap()`: `none` models the `unwrap` panic on a parse failure. -/
def Uri.fromString (s : List Char) : Option Uri :=
  (Uri.fromStr s).toOption


/-! ## StatusCode (src/http/status_code.rs) -/

/-- Mirrors `enum StatusCode`: the closed set of recognised codes.  There is
no variant for unrecognised codes. -/
inductive StatusCode where
  | Continue100
  | SwitchingProtocols101
  | Processing102
  | EarlyHints103
  | Ok200
  | Created201
  | Accepted202
  | NonAuthoritativeInformation203
  | NoContent204
  | ResetContent205
  | PartialContent206
  | MultiStatus207
  | AlreadyReported208
  | ImUsed226
  | MultipleChoices300
  | MovedPermanently301
  | Found302
  | SeeOther303
  | NotModified304
  | UseProxy305
  | TemporaryRedirect307
  | PermanentRedirect308
  | BadRequest400
  | Unauthorized401
  | PaymentRequired402
  | Forbidden403
  | NotFound404
  | MethodNotAllowed405
  | NotAcceptable406
  | ProxyAuthenticationRequired407
  | RequestTimeout408
  | Conflict409
  | Gone410
  | LengthRequired411
  | PrecondiditionFailed412
  | PayloadTooLarge413
  | UriTooLong414
  | UnsupportedMediaType415
  | RangeNotSatisfiable416
  | ExpectationFailed417
  | MisdirectedRequest421
  | UnprocessableEntity422
  | Locked423
  | FailedDependency424
  | TooEarly425
  | UpgradeRequired426
  | PreconditionRequired428
  | TooManyRequests429
  | RequestHeaderFieldsTooLarge431
  | UnavailableForLegalReasons451
  | InternalServerError500
  | NotImplemented501
  | BadGateway502
  | ServiceUnavailable503
  | GatewayTimeout504
  | HttpVersionNotSupported505
  | VariantAlsoNegotiates506
  | InsufficientStorage507
  | LoopDetected508
  | NotExtended510
  | NetworkAuthenticationRequired511
deriving DecidableEq, Repr

/-- Mirrors `TryFrom<u16> for StatusCode`: an exact match on each recognised
numeric code, any other value is the error "Unknown status code". -/
def StatusCode.try_from (status_code : Nat) : Except (List Char) StatusCode :=
  match status_code with
  | 100 => Except.ok StatusCode.Continue100
  | 101 => Except.ok StatusCode.SwitchingProtocols101
  | 102 => Except.ok StatusCode.Processing102
  | 103 => Except.ok StatusCode.EarlyHints103
  | 200 => Except.ok StatusCode.Ok200
  | 201 => Except.ok StatusCode.Created201
  | 202 => Except.ok StatusCode.Accepted202
  | 203 => Except.ok StatusCode.NonAuthoritativeInformation203
  | 204 => Except.ok StatusCode.NoContent204
  | 205 => Except.ok StatusCode.ResetContent205
  | 206 => Except.ok StatusCode.PartialContent206
  | 207 => Except.ok StatusCode.MultiStatus207
  | 208 => Except.ok StatusCode.AlreadyReported208
  | 226 => Except.ok StatusCode.ImUsed226
  | 300 => Except.ok StatusCode.MultipleChoices300
  | 301 => Except.ok StatusCode.MovedPermanently301
  | 302 => Except.ok StatusCode.Found302
  | 303 => Except.ok StatusCode.SeeOther303
  | 304 => Except.ok StatusCode.NotModified304
  | 305 => Except.ok StatusCode.UseProxy305
  | 307 => Except.ok StatusCode.TemporaryRedirect307
  | 308 => Except.ok StatusCode.PermanentRedirect308
  | 400 => Except.ok StatusCode.BadRequest400
  | 401 => Except.ok StatusCode.Unauthorized401
  | 402 => Except.ok StatusCode.PaymentRequired402
  | 403 => Except.ok StatusCode.Forbidden403
  | 404 => Except.ok StatusCode.NotFound404
  | 405 => Except.ok StatusCode.MethodNotAllowed405
  | 406 => Except.ok StatusCode.NotAcceptable406
  | 407 => Except.ok StatusCode.ProxyAuthenticationRequired407
  | 408 => Except.ok StatusCode.RequestTimeout408
  | 409 => Except.ok StatusCode.Conflict409
  | 410 => Except.ok StatusCode.Gone410
  | 411 => Except.ok StatusCode.LengthRequired411
  | 412 => Except.ok StatusCode.PrecondiditionFailed412
  | 413 => Except.ok StatusCode.PayloadTooLarge413
  | 414 => Except.ok StatusCode.UriTooLong414
  | 415 => Except.ok StatusCode.UnsupportedMediaType415
  | 416 => Except.ok StatusCode.RangeNotSatisfiable416
  | 417 => Except.ok StatusCode.ExpectationFailed417
  | 421 => Except.ok StatusCode.MisdirectedRequest421
  | 422 => Except.ok StatusCode.UnprocessableEntity422
  | 423 => Except.ok StatusCode.Locked423
  | 424 => Except.ok StatusCode.FailedDependency424
  | 425 => Except.ok StatusCode.TooEarly425
  | 426 => Except.ok StatusCode.UpgradeRequired426
  | 428 => Except.ok StatusCode.PreconditionRequired428
  | 429 => Except.ok StatusCode.TooManyRequests429
  | 431 => Except.ok StatusCode.RequestHeaderFieldsTooLarge431
  | 451 => Except.ok StatusCode.UnavailableForLegalReasons451
  | 500 => Except.ok StatusCode.InternalServerError500
  | 501 => Except.ok StatusCode.NotImplemented501
  | 502 => Except.ok StatusCode.BadGateway502
  | 503 => Except.ok StatusCode.ServiceUnavailable503
  | 504 => Except.ok StatusCode.GatewayTimeout504
  | 505 => Except.ok StatusCode.HttpVersionNotSupported505
  | 506 => Except.ok StatusCode.VariantAlsoNegotiates506
  | 507 => Except.ok StatusCode.InsufficientStorage507
  | 508 => Except.ok StatusCode.LoopDetected508
  | 510 => Except.ok StatusCode.NotExtended510
  | 511 => Except.ok StatusCode.NetworkAuthenticationRequired511
  | _ => Except.error ("Unknown status code".data)

/-! ## HttpMethod (src/http/method.rs) -/

/-- Mirrors `enum HttpMethod`. -/
inductive HttpMethod where
  | GET
  | POST
  | PUT
  | DELETE
  | PATCH
  | HEAD
  | OPTIONS
  | CONNECT
  | TRACE
deriving DecidableEq, Repr

/-- Mirrors `Display for HttpMethod`. -/
def HttpMethod.toStr : HttpMethod → List Char
  | HttpMethod.GET => ("GET".data)
  | HttpMethod.POST => ("POST".data)
  | HttpMethod.PUT => ("PUT".data)
  | HttpMethod.DELETE => ("DELETE".data)
  | HttpMethod.PATCH => ("PATCH".data)
  | HttpMethod.HEAD => ("HEAD".data)
  | HttpMethod.OPTIONS => ("OPTIONS".data)
  | HttpMethod.CONNECT => ("CONNECT".data)
  | HttpMethod.TRACE => ("TRACE".data)

/-! ## HttpHeaders (src/http/headers.rs) -/

/-- Replace the entry of key `k`, or add one when absent: the pure content
of `HashMap::insert`. -/
def insertEntry : List (List Char × List Char) → List Char → List Char →
    List (List Char × List Char)
  | [], k, v => [(k, v)]
  | p :: rest, k, v =>
    if p.1 = k then (k, v) :: rest else p :: insertEntry rest k v

/-- Mirrors `struct HttpHeaders`. -/
structure HttpHeaders where
  data : List (List Char × List Char)
deriving DecidableEq, Repr

/-- Mirrors `HttpHeaders::new`. -/
def HttpHeaders.new : HttpHeaders := { data := [] }

/-- Mirrors `HttpHeaders::insert` (`HashMap::insert`: last write wins). -/
def HttpHeaders.insert (h : HttpHeaders) (k v : List Char) : HttpHeaders :=
  { data := insertEntry h.data k v }

/-- Mirrors `HttpHeaders::get` (`HashMap::get`: exact key lookup). -/
def HttpHeaders.get (h : HttpHeaders) (k : List Char) : Option (List Char) :=
  (h.data.find? (fun p => p.1 = k)).map (fun p => p.2)

/-- Mirrors `HttpHeaders::combine`: clone the base map, then insert every
entry of `other` into the clone (so `other` wins on a key collision); both
inputs are left untouched, which the pure embedding makes implicit. -/
def HttpHeaders.combine (self other : HttpHeaders) : HttpHeaders :=
  { data := other.data.foldl (fun d p => insertEntry d p.1 p.2) self.data }

/-- Mirrors `Default for HttpHeaders`: the fixed baseline header table. -/
def HttpHeaders.default : HttpHeaders :=
  { data := [ (("User-Agent".data), ("Clienter/1.0 (Rust)".data)),
              (("Accept".data), ("*/*".data)),
              (("Accept-Language".data), ("en-US".data)),
              (("Accept-Encoding".data), ("gzip".data)),
              (("Connection".data), ("keep-alive".data)),
              (("Upgrade-Insecure-Requests".data), ("1".data)),
              (("Sec-Fetch-Dest".data), ("document".data)),
              (("Host".data), ("localhost".data)) ] }


/-! ## StreamBuffer (src/internal/stream_buffer.rs) -/

/-- Mirrors `struct StreamBuffer`: `stream` is the list of bytes (as
characters) that the peer will still deliver before closing the
connection, `bytes_read` counts the bytes consumed so far through
`get_byte`, and `total_bytes` is the optional cap set from
`Content-Length`. -/
structure StreamBuffer where
  stream : List Char
  bytes_read : Nat
  total_bytes : Option Nat
deriving DecidableEq, Repr

/-- Mirrors `StreamBuffer::new`. -/
def StreamBuffer.new (stream : List Char) : StreamBuffer :=
  { stream := stream, bytes_read := 0, total_bytes := none }

/-- Mirrors `StreamBuffer::set_total_bytes`. -/
def StreamBuffer.set_total_bytes (b : StreamBuffer) (total_bytes : Nat) : StreamBuffer :=
  { b with total_bytes := some total_bytes }

/-- Mirrors `StreamBuffer::get_byte`: `none` is the `UnexpectedEof` error,
raised either by the `bytes_read >= total_bytes` cap or by the transport
having closed (empty remaining stream). -/
def StreamBuffer.get_byte (b : StreamBuffer) : Option (Char × StreamBuffer) :=
  match b.total_bytes with
  | some t =>
    if t ≤ b.bytes_read then none
    else
      match b.stream with
      | [] => none
      | c :: rest => some (c, { b with stream := rest, bytes_read := b.bytes_read + 1 })
  | none =>
    match b.stream with
    | [] => none
    | c :: rest => some (c, { b with stream := rest, bytes_read := b.bytes_read + 1 })

/-- Loop body of `StreamBuffer::read_line`, phrased structurally on the
remaining stream: `allow` is `total_bytes - bytes_read` (the number of
bytes `get_byte` may still deliver before it reports end of file), and the
result is the collected raw line, the remaining stream, and the number of
bytes consumed.  The loop stops at the cap, at end of stream, or after a
newline byte; the newline is consumed but not collected. -/
def read_line_go : List Char → Option Nat → List Char × List Char × Nat
  | s, some 0 => ([], s, 0)
  | [], _ => ([], [], 0)
  | c :: rest, allow =>
    if c = '\n' then ([], rest, 1)
    else
      match read_line_go rest (allow.map (fun m => m - 1)) with
      | (raw, rem, n) => (c :: raw, rem, n + 1)

/-- Mirrors `StreamBuffer::read_line`: collect bytes through `get_byte`
until a newline or end of file, then trim whitespace from both ends.  In
this model of the transport the only I/O failure is end of file, which the
Rust code treats as the end of the line, so the function is total. -/
def StreamBuffer.read_line (b : StreamBuffer) : List Char × StreamBuffer :=
  match read_line_go b.stream (b.total_bytes.map (fun t => t - b.bytes_read)) with
  | (raw, rem, n) =>
    (trimList raw, { b with stream := rem, bytes_read := b.bytes_read + n })

/-- Mirrors `StreamBuffer::read_all`: with a `total_bytes` cap the Rust
code allocates a buffer of exactly that size and `read_exact`s into it, so
it succeeds with exactly `total_bytes` further bytes when that many remain
and fails with `UnexpectedEof` (here `Except.error ()`) when the transport
closes earlier; without a cap `read_to_end` returns every remaining byte. -/
def StreamBuffer.read_all (b : StreamBuffer) : Except Unit (List Char × StreamBuffer) :=
  match b.total_bytes with
  | some t =>
    if t ≤ b.stream.length then
      Except.ok (b.stream.take t, { b with stream := b.stream.drop t })
    else Except.error ()
  | none => Except.ok (b.stream, { b with stream := [] })

/-! ## HttpResponse (src/core/response.rs) -/

/-- Mirrors `enum ResponseError`. -/
inductive ResponseError where
  | InvalidStatusLine
  | InvalidHeader
  | InvalidBody
deriving DecidableEq, Repr

/-- Status-line stage of `HttpResponse::build`: split the (already
trimmed) line at its first two spaces, parse the middle token as a `u16`,
and convert it to a `StatusCode`; every failure is `InvalidStatusLine`. -/
def parse_status_line (line : List Char) : Except ResponseError StatusCode :=
  match triple_split line (" ".data) with
  | none => Except.error ResponseError.InvalidStatusLine
  | some (_http_version, status, _) =>
    match parseU16 status with
    | none => Except.error ResponseError.InvalidStatusLine
    | some n =>
      match StatusCode.try_from n with
      | Except.error _ => Except.error ResponseError.InvalidStatusLine
      | Except.ok status => Except.ok status

/-- Header-block loop of `HttpResponse::build`: read one line at a time,
stop at the first empty (post-trim) line, otherwise split at the first
colon, trim name and value, and insert.  The `fuel` argument only bounds
the loop so that the definition is structurally recursive; `build` passes
one more than the remaining stream length, which is never exhausted since
every non-empty line consumes at least one byte. -/
def read_headers : Nat → StreamBuffer → HttpHeaders →
    Except ResponseError (HttpHeaders × StreamBuffer)
  | 0, _, _ => Except.error ResponseError.InvalidHeader
  | fuel + 1, b, headers =>
    match b.read_line with
    | (line0, b1) =>
      let line := trimList line0
      if line = [] then Except.ok (headers, b1)
      else
        match tuple_split line (":".data) with
        | none => Except.error ResponseError.InvalidHeader
        | some (key, value) =>
          read_headers fuel b1 (headers.insert (trimList key) (trimList value))

/-- Mirrors `struct HttpResponse`. -/
structure HttpResponse where
  status : StatusCode
  headers : HttpHeaders
  buffer : StreamBuffer
deriving DecidableEq, Repr

/-- Mirrors `HttpResponse::build`: read and parse the status line, read the
header block, then set the buffer cap from a `Content-Length` header when
one is present and parses as a `usize`. -/
def HttpResponse.build (stream : List Char) : Except ResponseError HttpResponse :=
  match (StreamBuffer.new stream).read_line with
  | (status_line, b1) =>
    match parse_status_line status_line with
    | Except.error e => Except.error e
    | Except.ok status =>
      match read_headers (b1.stream.length + 1) b1 HttpHeaders.new with
      | Except.error e => Except.error e
      | Except.ok (headers, b2) =>
        let b3 := match headers.get ("Content-Length".data) with
          | some content_length =>
            match parseUSize content_length with
            | some n => b2.set_total_bytes n
            | none => b2
          | none => b2
        Except.ok { status := status, headers := headers, buffer := b3 }

/-- Mirrors `HttpResponse::body`: `read_all`, with any I/O failure mapped
to `InvalidBody`. -/
def HttpResponse.body (r : HttpResponse) : Except ResponseError (List Char) :=
  match r.buffer.read_all with
  | Except.ok (bytes, _) => Except.ok bytes
  | Except.error _ => Except.error ResponseError.InvalidBody

/-! ## HttpRequest and HttpClient (src/core/request.rs, src/core/client.rs) -/

/-- Mirrors `struct HttpRequest` (the timeout is an opaque duration). -/
structure HttpRequest where
  method : HttpMethod
  uri : Uri
  headers : HttpHeaders
  timeout : Option Nat
deriving DecidableEq, Repr

/-- Mirrors `HttpRequest::new` for a string argument, which goes through
`From<&str> for Uri` and therefore panics (`none`) when the URI fails to
parse; on success the request carries the default headers and no timeout. -/
def HttpRequest.newOfString (method : HttpMethod) (s : List Char) : Option HttpRequest :=
  (Uri.fromString s).map
    (fun u => { method := method, uri := u, headers := HttpHeaders.default,
                timeout := none })

/-- Mirrors `HttpRequest::get_request_line`:
`format!("{} {} {}", method, format!("/{}", encoded_path), version)`. -/
def HttpRequest.get_request_line (r : HttpRequest) : List Char :=
  r.method.toStr ++ (' ' :: '/' :: r.uri.get_encoded_path) ++
    (' ' :: r.uri.protocol.get_http_version)

/-- Mirrors `struct HttpClient`. -/
structure HttpClient where
  timeout : Option Nat
  headers : HttpHeaders
deriving DecidableEq, Repr

/-- Mirrors `HttpClient::request` for a string argument: it simply calls
`HttpRequest::new`, so it panics (`none`) on an unparsable URI as well. -/
def HttpClient.request (_c : HttpClient) (method : HttpMethod) (s : List Char) :
    Option HttpRequest :=
  HttpRequest.newOfString method s


/-! ## Supporting lemmas -/

/-- A successful `tuple_split` decomposes its input around the pattern. -/
theorem tuple_split_eq_append {s pat l r : List Char}
    (h : tuple_split s pat = some (l, r)) : s = l ++ pat ++ r := by
  induction s generalizing l r with
  | nil =>
    unfold tuple_split at h
    split at h
    · rename_i hp
      simp only [List.isPrefixOf_iff_prefix, List.prefix_nil] at hp
      cases h
      simp [hp]
    · cases h
  | cons c rest ih =>
    unfold tuple_split at h
    split at h
    · rename_i hp
      rw [List.isPrefixOf_iff_prefix] at hp
      cases h
      simpa using (List.prefix_iff_eq_append.mp hp).symm
    · rename_i hp
      rcases hrec : tuple_split rest pat with _ | ⟨l0, r0⟩
      · rw [hrec] at h; cases h
      · rw [hrec] at h
        cases h
        simpa using ih hrec

/-- Whenever the (non-empty) pattern occurs in the input, `tuple_split`
finds a split. -/
theorem tuple_split_isSome_of_append {pat : List Char} (hpat : pat ≠ []) :
    ∀ (l r : List Char), (tuple_split (l ++ (pat ++ r)) pat).isSome = true := by
  intro l
  induction l with
  | nil =>
    intro r
    unfold tuple_split
    rcases pat with _ | ⟨c, prest⟩
    · exact absurd rfl hpat
    · simp [List.isPrefixOf_iff_prefix, List.prefix_append]
  | cons c lrest ih =>
    intro r
    rw [List.cons_append]
    unfold tuple_split
    split
    · simp
    · rcases hrec : tuple_split (lrest ++ (pat ++ r)) pat with _ | ⟨l0, r0⟩
      · have := ih r
        rw [hrec] at this
        cases this
      · simp [hrec]


/-- Value lookup after `insertEntry`: the inserted key now maps to the new
value and every other key is untouched. -/
theorem find?_insertEntry (l : List (List Char × List Char)) (k v k' : List Char) :
    ((insertEntry l k v).find? (fun p => p.1 = k')).map (fun p => p.2) =
      if k' = k then some v
      else (l.find? (fun p => p.1 = k')).map (fun p => p.2) := by
  induction l with
  | nil =>
    by_cases h : k' = k
    · simp [insertEntry, List.find?_cons, h]
    · have h2 : ¬ k = k' := fun he => h he.symm
      simp [insertEntry, List.find?_cons, h, h2]
  | cons p rest ih =>
    by_cases hpk : p.1 = k
    · by_cases hk : k' = k
      · simp [insertEntry, hpk, List.find?_cons, hk]
      · have hpk' : ¬ p.1 = k' := by rw [hpk]; exact fun he => hk he.symm
        have hkk' : ¬ k = k' := fun he => hk he.symm
        simp [insertEntry, hpk, List.find?_cons, hk, hpk', hkk']
    · by_cases hpk' : p.1 = k'
      · have hk : ¬ k' = k := fun he => hpk (by rw [hpk', he])
        simp [insertEntry, hpk, List.find?_cons, hpk', hk]
      · simp [insertEntry, hpk, List.find?_cons, hpk', ih]

/-- A key that occurs in no entry is not found. -/
theorem find?_eq_none_of_not_mem (l : List (List Char × List Char)) (k : List Char)
    (h : ¬ k ∈ l.map Prod.fst) : l.find? (fun p => p.1 = k) = none := by
  rw [List.find?_eq_none]
  intro p hp hpk
  exact h (List.mem_map.mpr ⟨p, hp, by simpa using hpk⟩)

/-- Folding the entries of an overlay into a base map by `insertEntry`
looks up like the overlay first and the base second, provided the overlay
has no duplicate keys. -/
theorem foldl_insertEntry_find? (ol : List (List Char × List Char)) :
    ∀ (bd : List (List Char × List Char)) (k : List Char),
      (ol.map Prod.fst).Nodup →
      ((ol.foldl (fun d p => insertEntry d p.1 p.2) bd).find?
          (fun p => p.1 = k)).map (fun p => p.2) =
        ((ol.find? (fun p => p.1 = k)).map (fun p => p.2)).or
          ((bd.find? (fun p => p.1 = k)).map (fun p => p.2)) := by
  induction ol with
  | nil => intro bd k _; simp
  | cons p rest ih =>
    intro bd k hnd
    rw [List.map_cons, List.nodup_cons] at hnd
    have hstep := ih (insertEntry bd p.1 p.2) k hnd.2
    rw [List.foldl_cons, hstep, find?_insertEntry]
    by_cases hk : k = p.1
    · subst hk
      have hnone : rest.find? (fun q => q.1 = p.1) = none :=
        find?_eq_none_of_not_mem rest p.1 hnd.1
      simp [List.find?_cons, hnone]
    · have hpk : ¬ p.1 = k := fun he => hk he.symm
      simp [List.find?_cons, hpk, hk]


/-- Reading a line never changes the `total_bytes` cap. -/
theorem read_line_total_bytes (b : StreamBuffer) :
    ((StreamBuffer.read_line b).2).total_bytes = b.total_bytes := by
  unfold StreamBuffer.read_line
  rcases read_line_go b.stream (b.total_bytes.map (fun t => t - b.bytes_read)) with
    ⟨raw, rem, n⟩
  rfl

/-- The header loop never changes the `total_bytes` cap. -/
theorem read_headers_total_bytes :
    ∀ (fuel : Nat) (b : StreamBuffer) (hs headers : HttpHeaders) (b2 : StreamBuffer),
      read_headers fuel b hs = Except.ok (headers, b2) →
      b2.total_bytes = b.total_bytes := by
  intro fuel
  induction fuel with
  | zero => intro b hs headers b2 h; cases h
  | succ fuel ih =>
    intro b hs headers b2 h
    unfold read_headers at h
    rcases hl : b.read_line with ⟨line0, b1⟩
    rw [hl] at h
    simp only at h
    split at h
    · cases h
      have := read_line_total_bytes b
      rw [hl] at this
      exact this
    · split at h
      · cases h
      · rename_i key value heq
        have h1 := ih b1 (hs.insert (trimList key) (trimList value)) headers b2 h
        have h2 := read_line_total_bytes b
        rw [hl] at h2
        rw [h1]
        exact h2


/-- After a successful `build`, the buffer cap is exactly the value of the
`Content-Length` header when present and parsable, and `none` otherwise. -/
theorem build_total_bytes {s : List Char} {r : HttpResponse}
    (h : HttpResponse.build s = Except.ok r) :
    r.buffer.total_bytes = (r.headers.get ("Content-Length".data)).bind parseUSize := by
  unfold HttpResponse.build at h
  rcases hl : (StreamBuffer.new s).read_line with ⟨status_line, b1⟩
  rw [hl] at h
  simp only at h
  split at h
  · cases h
  · split at h
    · cases h
    · rename_i status hst headers b2 hrh
      have hb1 : b1.total_bytes = none := by
        have := read_line_total_bytes (StreamBuffer.new s)
        rw [hl] at this
        exact this
      have hb2 : b2.total_bytes = none := by
        rw [read_headers_total_bytes _ _ _ _ _ hrh, hb1]
      cases h
      dsimp only
      split
      · rename_i v hv
        rw [hv]
        simp only [Option.bind]
        split
        · rename_i n hn
          rw [hn]
          rfl
        · rename_i hn
          rw [hn]
          exact hb2
      · rename_i hv
        rw [hv]
        exact hb2

/-- Behaviour of `body` under a byte cap that the remaining stream can
satisfy. -/
theorem body_of_cap_le {r : HttpResponse} {n : Nat}
    (ht : r.buffer.total_bytes = some n) (hle : n ≤ r.buffer.stream.length) :
    r.body = Except.ok (r.buffer.stream.take n) := by
  unfold HttpResponse.body StreamBuffer.read_all
  rw [ht]
  simp [hle]

/-- Behaviour of `body` when the transport closes before the cap is
reached. -/
theorem body_of_cap_gt {r : HttpResponse} {n : Nat}
    (ht : r.buffer.total_bytes = some n) (hgt : r.buffer.stream.length < n) :
    r.body = Except.error ResponseError.InvalidBody := by
  unfold HttpResponse.body StreamBuffer.read_all
  rw [ht]
  simp [Nat.not_le.mpr hgt]

/-- Behaviour of `body` without a cap: every remaining byte is returned. -/
theorem body_of_no_cap {r : HttpResponse}
    (ht : r.buffer.total_bytes = none) :
    r.body = Except.ok r.buffer.stream := by
  unfold HttpResponse.body StreamBuffer.read_all
  rw [ht]


/-- Replacement of a single character distributes over concatenation. -/
theorem replaceChar_append (a b : List Char) (pat : Char) (rep : List Char) :
    replaceChar (a ++ b) pat rep = replaceChar a pat rep ++ replaceChar b pat rep := by
  induction a with
  | nil => rfl
  | cons c rest ih => simp [replaceChar, ih]

/-- The claimed character-by-character description of path encoding: only
the percent sign and the space are rewritten, every other character is
kept verbatim.  Stated from the claim, to be compared with
`Uri.get_encoded_path` as translated from the source. -/
def encodeSpecMap : List Char → List Char
  | [] => []
  | c :: rest =>
    (if c = '%' then ("%25".data) else if c = ' ' then ("%20".data) else [c]) ++
      encodeSpecMap rest

/-- The two sequential `replace` passes of the source equal the one-pass
character map of the claim. -/
theorem replace_eq_encodeSpecMap (p : List Char) :
    replaceChar (replaceChar p '%' ("%25".data)) ' ' ("%20".data) = encodeSpecMap p := by
  induction p with
  | nil => rfl
  | cons c rest ih =>
    show replaceChar ((if c = '%' then ("%25".data) else [c]) ++
      replaceChar rest '%' ("%25".data)) ' ' ("%20".data) = _
    rw [replaceChar_append]
    by_cases h1 : c = '%'
    · rw [ih]
      simp [encodeSpecMap, h1, replaceChar]
    · by_cases h2 : c = ' '
      · rw [ih]
        simp [encodeSpecMap, h1, h2, replaceChar]
      · rw [ih]
        simp [encodeSpecMap, h1, h2, replaceChar]

/-- The numeric codes the amended claim recognises: the claimed ranges with
509 removed. -/
def recognizedCode (n : Nat) : Prop :=
  (100 ≤ n ∧ n ≤ 103) ∨ (200 ≤ n ∧ n ≤ 208) ∨ n = 226 ∨
    (300 ≤ n ∧ n ≤ 305) ∨ n = 307 ∨ n = 308 ∨
    (400 ≤ n ∧ n ≤ 417) ∨ (421 ≤ n ∧ n ≤ 426) ∨ n = 428 ∨ n = 429 ∨ n = 431 ∨
    n = 451 ∨ (500 ≤ n ∧ n ≤ 508) ∨ n = 510 ∨ n = 511

/-! ## Concrete data used by the witnesses -/

/-- A complete response with a satisfiable Content-Length. -/
def clStream : List Char :=
  ("HTTP/1.1 200 OK\r\nContent-Length: 5\r\n\r\nHELLO".data)

/-- The response `build` produces from `clStream`. -/
def clResp : HttpResponse :=
  { status := StatusCode.Ok200,
    headers := { data := [(("Content-Length".data), ("5".data))] },
    buffer := { stream := ("HELLO".data), bytes_read := 38, total_bytes := some 5 } }

/-- A complete response without a Content-Length header. -/
def nclStream : List Char :=
  ("HTTP/1.1 200 OK\r\nX-Test: 1\r\n\r\nabc".data)

/-- The response `build` produces from `nclStream`. -/
def nclResp : HttpResponse :=
  { status := StatusCode.Ok200,
    headers := { data := [(("X-Test".data), ("1".data))] },
    buffer := { stream := ("abc".data), bytes_read := 30, total_bytes := none } }

/-- The base header set of the combination example. -/
def baseHeaders : HttpHeaders :=
  { data := [(("A".data), ("1".data)), (("B".data), ("2".data))] }

/-- The overlay header set of the combination example. -/
def overlayHeaders : HttpHeaders :=
  { data := [(("B".data), ("3".data)), (("C".data), ("4".data))] }


/-! ## Claim theorems -/

/-- C1: for every response whose header block contains a Content-Length
header parsing as a non-negative integer N, `body()` returns exactly N
bytes when at least N bytes remain on the stream, fails with
`InvalidBody` when the transport closes after fewer than N bytes, and
never returns a short buffer as success. -/
theorem content_length_body_exact
    (s : List Char) (r : HttpResponse) (v : List Char) (n : Nat)
    (hb : HttpResponse.build s = Except.ok r)
    (hv : r.headers.get ("Content-Length".data) = some v)
    (hn : parseUSize v = some n) :
    (n ≤ r.buffer.stream.length →
      r.body = Except.ok (r.buffer.stream.take n) ∧
        (r.buffer.stream.take n).length = n) ∧
    (r.buffer.stream.length < n →
      r.body = Except.error ResponseError.InvalidBody) ∧
    (∀ bytes, r.body = Except.ok bytes → bytes.length = n) := by
  have ht : r.buffer.total_bytes = some n := by
    rw [build_total_bytes hb, hv]
    simpa using hn
  refine ⟨fun hle => ⟨body_of_cap_le ht hle, ?_⟩,
    fun hgt => body_of_cap_gt ht hgt, ?_⟩
  · simp [List.length_take, Nat.min_eq_left hle]
  · intro bytes hbytes
    by_cases hle : n ≤ r.buffer.stream.length
    · rw [body_of_cap_le ht hle] at hbytes
      cases hbytes
      simp [List.length_take, Nat.min_eq_left hle]
    · rw [body_of_cap_gt ht (Nat.not_le.mp hle)] at hbytes
      cases hbytes

/-- Witness for C1 at a concrete stream: Content-Length 5 followed by
exactly five body bytes, whose body comes back whole. -/
theorem content_length_body_exact_witness :
    HttpResponse.build clStream = Except.ok clResp ∧
      clResp.body = Except.ok ("HELLO".data) ∧ ("HELLO".data).length = 5 := by
  have hb : HttpResponse.build clStream = Except.ok clResp := by decide
  have h := (content_length_body_exact clStream clResp ("5".data) 5 hb
    (by decide) (by decide)).1 (by decide)
  refine ⟨hb, ?_, by decide⟩
  rw [h.1]
  decide

/-- C4: for every response whose header block has no Content-Length
header, or whose Content-Length value does not parse, `body()` reads to
end of stream and returns every remaining byte as success. -/
theorem no_content_length_reads_to_eof
    (s : List Char) (r : HttpResponse)
    (hb : HttpResponse.build s = Except.ok r)
    (hcl : r.headers.get ("Content-Length".data) = none ∨
      ∃ v, r.headers.get ("Content-Length".data) = some v ∧ parseUSize v = none) :
    r.body = Except.ok r.buffer.stream := by
  apply body_of_no_cap
  rw [build_total_bytes hb]
  rcases hcl with h | ⟨v, hv, hn⟩
  · rw [h]
    rfl
  · rw [hv]
    simpa using hn

/-- Witness for C4 at a concrete stream without Content-Length: the three
bytes before the close all come back. -/
theorem no_content_length_reads_to_eof_witness :
    HttpResponse.build nclStream = Except.ok nclResp ∧
      nclResp.body = Except.ok ("abc".data) := by
  have hb : HttpResponse.build nclStream = Except.ok nclResp := by decide
  have h := no_content_length_reads_to_eof nclStream nclResp hb (Or.inl (by decide))
  refine ⟨hb, ?_⟩
  rw [h]
  decide


/-- C2: status-line parsing: "HTTP/1.1 200 OK" yields Ok200;
"HTTP/1.1 999 Bogus" fails with InvalidStatusLine; fewer than three
space-delimited parts, a status token that is no valid u16, or an integer
with no known StatusCode each fail with InvalidStatusLine; three tokens
with a recognised numeric status always succeed; and the parser operates
on the line that `read_line` returns after trimming, its failure making
`build` fail with InvalidStatusLine. -/
theorem status_line_parse_cases :
    parse_status_line ("HTTP/1.1 200 OK".data) = Except.ok StatusCode.Ok200 ∧
    parse_status_line ("HTTP/1.1 999 Bogus".data) =
      Except.error ResponseError.InvalidStatusLine ∧
    (∀ line, triple_split line (" ".data) = none →
      parse_status_line line = Except.error ResponseError.InvalidStatusLine) ∧
    (∀ line a st rest, triple_split line (" ".data) = some (a, st, rest) →
      parseU16 st = none →
      parse_status_line line = Except.error ResponseError.InvalidStatusLine) ∧
    (∀ line a st rest n e, triple_split line (" ".data) = some (a, st, rest) →
      parseU16 st = some n → StatusCode.try_from n = Except.error e →
      parse_status_line line = Except.error ResponseError.InvalidStatusLine) ∧
    (∀ line a st rest n c, triple_split line (" ".data) = some (a, st, rest) →
      parseU16 st = some n → StatusCode.try_from n = Except.ok c →
      parse_status_line line = Except.ok c) ∧
    (∀ stream, parse_status_line (((StreamBuffer.new stream).read_line).1) =
        Except.error ResponseError.InvalidStatusLine →
      HttpResponse.build stream = Except.error ResponseError.InvalidStatusLine) := by
  refine ⟨by decide, by decide, ?_, ?_, ?_, ?_, ?_⟩
  · intro line h
    unfold parse_status_line
    rw [h]
  · intro line a st rest h h16
    unfold parse_status_line
    rw [h]
    simp only
    rw [h16]
  · intro line a st rest n e h h16 htf
    unfold parse_status_line
    rw [h]
    simp only
    rw [h16]
    simp only
    rw [htf]
  · intro line a st rest n c h h16 htf
    unfold parse_status_line
    rw [h]
    simp only
    rw [h16]
    simp only
    rw [htf]
  · intro stream h
    unfold HttpResponse.build
    rcases hl : (StreamBuffer.new stream).read_line with ⟨status_line, b1⟩
    rw [hl] at h
    simp only at h
    dsimp only
    rw [h]

/-- Witness for C2 at a one-token line, which has fewer than three parts
and is rejected. -/
theorem status_line_parse_cases_witness :
    parse_status_line ("HTTP".data) = Except.error ResponseError.InvalidStatusLine :=
  status_line_parse_cases.2.2.1 ("HTTP".data) (by decide)

/-- Counterexample to C3: the claim includes 509 in the recognised span
500 to 511, but `try_from 509` is an error. -/
theorem status_code_509_unrecognized :
    StatusCode.try_from 509 = Except.error ("Unknown status code".data) ∧
    (500 ≤ 509 ∧ 509 ≤ 511) := by
  exact ⟨by decide, by decide⟩

/-- C3 (amended): `StatusCode.try_from n` succeeds exactly for the codes
100 to 103, 200 to 208, 226, 300 to 305, 307, 308, 400 to 417, 421 to
426, 428, 429, 431, 451, 500 to 508, 510 and 511 — the claimed set minus
509 — and fails on every other value. -/
theorem try_from_domain (n : Nat) :
    (StatusCode.try_from n).isOk = true ↔ recognizedCode n := by
  unfold StatusCode.try_from recognizedCode
  split
  all_goals try decide
  simp only [imp_false] at *
  constructor
  · intro h
    exact absurd h (by decide)
  · intro h
    exfalso
    omega


/-- Counterexample to C5: "http://host//x" parses successfully, yet the
stored path "/x" begins with a slash. -/
theorem uri_path_leading_slash_counterexample :
    Uri.fromStr ("http://host//x".data) =
      Except.ok { protocol := Protocol.HTTP, hostname := ("host".data),
                  port := none, path := ("/x".data) } ∧
    ("/x".data).head? = some '/' := by
  exact ⟨by decide, by decide⟩

/-- C5 (amended): every successfully parsed URI has a non-empty host; and
the path never retains the slash that delimits it from the authority — in
particular, whenever the post-scheme remainder contains no two consecutive
slashes, the stored path does not begin with a slash (it can for inputs
such as "http://host//x"). -/
theorem uri_parse_invariants_amended
    (s : List Char) (u : Uri) (h : Uri.fromStr s = Except.ok u) :
    u.hostname ≠ [] ∧
      (tuple_split (schemeSplit s).2 ("//".data) = none →
        u.path.head? ≠ some '/') := by
  unfold Uri.fromStr at h
  split at h
  · cases h
  · rcases hss : schemeSplit s with ⟨protoStr, rest⟩
    rw [hss] at h
    simp only at h
    split at h
    · cases h
    · rename_i protocol hproto
      split at h
      · cases h
      · rename_i hostport path hsplit
        split at h
        · cases h
        · rename_i hostname port hport
          split at h
          · cases h
          · rename_i hne
            cases h
            refine ⟨hne, ?_⟩
            intro hnodbl hhead
            dsimp only at hnodbl hhead
            by_cases hc : rest.contains '/'
            · rw [if_pos hc] at hsplit
              have hrest := tuple_split_eq_append hsplit
              rcases path with _ | ⟨c, p2⟩
              · cases hhead
              · have hc2 : c = '/' := by
                  simpa using hhead
                subst hc2
                have hrest2 : rest = hostport ++ (("//".data) ++ p2) := by
                  rw [hrest]
                  simp
                have hsome := @tuple_split_isSome_of_append ("//".data)
                  (by decide) hostport p2
                rw [← hrest2, hnodbl] at hsome
                cases hsome
            · rw [if_neg hc] at hsplit
              cases hsplit
              cases hhead

/-- Witness for C5 at "http://example.com/a b": non-empty host and no
leading slash in the stored path. -/
theorem uri_parse_invariants_amended_witness :
    (({ protocol := Protocol.HTTP, hostname := ("example.com".data), port := none,
        path := ("a b".data) } : Uri).hostname ≠ []) ∧
    (({ protocol := Protocol.HTTP, hostname := ("example.com".data), port := none,
        path := ("a b".data) } : Uri).path.head? ≠ some '/') := by
  have h := uri_parse_invariants_amended ("http://example.com/a b".data)
    { protocol := Protocol.HTTP, hostname := ("example.com".data), port := none,
      path := ("a b".data) } (by decide)
  exact ⟨h.1, h.2 (by decide)⟩

/-- C6: URI parse error classification: empty input fails with Empty,
"ftp://host" with InvalidProtocol, "http://:80" with InvalidHostname,
"http://host:abc" with InvalidPort; and in general every input whose
scheme text before "://" differs from the case-sensitive "http" and
"https" fails with InvalidProtocol. -/
theorem uri_error_classification :
    Uri.fromStr ("".data) = Except.error UriError.Empty ∧
    Uri.fromStr ("ftp://host".data) = Except.error UriError.InvalidProtocol ∧
    Uri.fromStr ("http://:80".data) = Except.error UriError.InvalidHostname ∧
    Uri.fromStr ("http://host:abc".data) = Except.error UriError.InvalidPort ∧
    (∀ s scheme rest, tuple_split s ("://".data) = some (scheme, rest) →
      scheme ≠ ("http".data) → scheme ≠ ("https".data) →
      Uri.fromStr s = Except.error UriError.InvalidProtocol) := by
  refine ⟨by decide, by decide, by decide, by decide, ?_⟩
  intro s scheme rest hsplit h1 h2
  have hs := tuple_split_eq_append hsplit
  have hne : s ≠ [] := by
    rw [hs]
    intro hc
    rcases List.append_eq_nil.mp hc with ⟨hc1, _⟩
    rcases List.append_eq_nil.mp hc1 with ⟨_, hc3⟩
    exact absurd hc3 (by decide)
  unfold Uri.fromStr
  rw [if_neg hne]
  unfold schemeSplit
  rw [hsplit]
  simp only
  unfold Protocol.fromStr
  rw [if_neg h1, if_neg h2]

/-- Witness for C6 at the unknown scheme "ftp2". -/
theorem uri_error_classification_witness :
    Uri.fromStr ("ftp2://h".data) = Except.error UriError.InvalidProtocol :=
  uri_error_classification.2.2.2.2 ("ftp2://h".data) ("ftp2".data) ("h".data)
    (by decide) (by decide) (by decide)

/-- C7: the request line is always METHOD, one space, a slash followed by
the encoded path, one space, and the version label, the latter being
"HTTP/1.1" for HTTP and "HTTP/2" for HTTPS; a GET request for
"http://example.com/a b" serialises "GET /a%20b HTTP/1.1", and a line
reader fed those bytes followed by CRLF recovers the identical line. -/
theorem request_line_format :
    (∀ r : HttpRequest, r.get_request_line =
      r.method.toStr ++ (' ' :: '/' :: r.uri.get_encoded_path) ++
        (' ' :: r.uri.protocol.get_http_version)) ∧
    Protocol.get_http_version Protocol.HTTP = ("HTTP/1.1".data) ∧
    Protocol.get_http_version Protocol.HTTPS = ("HTTP/2".data) ∧
    Uri.fromStr ("http://example.com/a b".data) =
      Except.ok { protocol := Protocol.HTTP, hostname := ("example.com".data),
                  port := none, path := ("a b".data) } ∧
    HttpRequest.get_request_line
        { method := HttpMethod.GET,
          uri := { protocol := Protocol.HTTP, hostname := ("example.com".data),
                   port := none, path := ("a b".data) },
          headers := HttpHeaders.default, timeout := none } =
      ("GET /a%20b HTTP/1.1".data) ∧
    ((StreamBuffer.new (("GET /a%20b HTTP/1.1".data) ++
        ('\r' :: '\n' :: ("next line".data)))).read_line).1 =
      ("GET /a%20b HTTP/1.1".data) := by
  exact ⟨fun r => rfl, by decide, by decide, by decide, by decide, by decide⟩


/-- C8: path encoding rewrites the percent sign (applied first) and the
space and nothing else, character by character; "50%discount" encodes to
"50%25discount", "a b" to "a%20b", and "100% a b" to "100%25%20a%20b". -/
theorem encoded_path_only_percent_and_space :
    (∀ u : Uri, u.get_encoded_path = encodeSpecMap u.path) ∧
    Uri.get_encoded_path
        { protocol := Protocol.HTTP, hostname := ("h".data), port := none,
          path := ("50%discount".data) } = ("50%25discount".data) ∧
    Uri.get_encoded_path
        { protocol := Protocol.HTTP, hostname := ("h".data), port := none,
          path := ("a b".data) } = ("a%20b".data) ∧
    Uri.get_encoded_path
        { protocol := Protocol.HTTP, hostname := ("h".data), port := none,
          path := ("100% a b".data) } = ("100%25%20a%20b".data) := by
  refine ⟨?_, by decide, by decide, by decide⟩
  intro u
  exact replace_eq_encodeSpecMap u.path

/-- C9: header combination contains every key of either set, the overlay
value wins on a key present in both, and — the embedding being pure — the
combination builds a fresh map from a clone of the base, leaving both
inputs untouched. -/
theorem combine_right_biased (b o : HttpHeaders) (k : List Char)
    (hnd : (o.data.map Prod.fst).Nodup) :
    (b.combine o).get k = (o.get k).or (b.get k) ∧
    ((b.combine o).get k ≠ none ↔ (o.get k ≠ none ∨ b.get k ≠ none)) := by
  have h := foldl_insertEntry_find? o.data b.data k hnd
  have hmain : (b.combine o).get k = (o.get k).or (b.get k) := h
  refine ⟨hmain, ?_⟩
  rw [hmain]
  rcases o.get k with _ | v <;> rcases b.get k with _ | w <;>
    simp [Option.or]

/-- Witness for C9 at base A:1, B:2 and overlay B:3, C:4: the combination
is A:1, B:3, C:4. -/
theorem combine_right_biased_witness :
    (baseHeaders.combine overlayHeaders).get ("A".data) = some ("1".data) ∧
    (baseHeaders.combine overlayHeaders).get ("B".data) = some ("3".data) ∧
    (baseHeaders.combine overlayHeaders).get ("C".data) = some ("4".data) ∧
    baseHeaders.data = [(("A".data), ("1".data)), (("B".data), ("2".data))] ∧
    overlayHeaders.data = [(("B".data), ("3".data)), (("C".data), ("4".data))] := by
  have hA := (combine_right_biased baseHeaders overlayHeaders ("A".data) (by decide)).1
  have hB := (combine_right_biased baseHeaders overlayHeaders ("B".data) (by decide)).1
  have hC := (combine_right_biased baseHeaders overlayHeaders ("C".data) (by decide)).1
  refine ⟨?_, ?_, ?_, by decide, by decide⟩
  · rw [hA]
    decide
  · rw [hB]
    decide
  · rw [hC]
    decide

/-- C10: the infallible string-to-Uri conversions panic (modelled as
`none`) exactly on the strings whose parse fails — for example the empty
string and "ftp://host" — and produce a Uri exactly when parsing
succeeds; `HttpRequest::new` and `HttpClient::request` inherit this. -/
theorem from_string_panics_iff_parse_fails :
    (∀ s, Uri.fromString s = none ↔ ∃ e, Uri.fromStr s = Except.error e) ∧
    (∀ s u, Uri.fromString s = some u ↔ Uri.fromStr s = Except.ok u) ∧
    Uri.fromString ("".data) = none ∧
    Uri.fromString ("ftp://host".data) = none ∧
    (∀ m s, HttpRequest.newOfString m s = none ↔ Uri.fromString s = none) ∧
    (∀ c m s, HttpClient.request c m s = HttpRequest.newOfString m s) := by
  refine ⟨?_, ?_, by decide, by decide, ?_, fun c m s => rfl⟩
  · intro s
    unfold Uri.fromString
    rcases Uri.fromStr s with e | u <;> simp [Except.toOption]
  · intro s u
    unfold Uri.fromString
    rcases Uri.fromStr s with e | v <;> simp [Except.toOption]
  · intro m s
    unfold HttpRequest.newOfString
    rcases Uri.fromString s with _ | u <;> simp

end Clienter
